import Mathlib

/-!
Verification of the background indexing engine (`src/index/Background.h`,
clangd background index as shipped with lsif-clang).

The header declares the data model (`BackgroundQueue::Task`, the
`QueuePriority` enum, `ShardVersion`, `Source`) and the interfaces
(`BackgroundIndexStorage`, `BackgroundQueue`, `BackgroundIndex`).  The
implementation file (`Background.cpp`) and the rebuilder
(`BackgroundRebuild.h/cpp`) are not part of the analyzed sources; where a
claim depends on them, the corresponding definition is modelled from the
specification (doc comments starting `Modelled from the spec:`) and the
claim is settled against that model.
-/

namespace Clangd

/-! ## Task and queue data model (from `src/index/Background.h`) -/

/-- Thread-priority hint, `llvm::ThreadPriority`. -/
inductive ThreadPriority where
  | Background
  | Normal
deriving DecidableEq, Repr

/-- A work item on the thread pool's queue (`BackgroundQueue::Task`,
Background.h lines 67-77).  The executable action `std::function<void()> Run`
is embedded as an opaque action identifier. -/
structure Task where
  Run : Nat
  ThreadPri : ThreadPriority := ThreadPriority.Background
  QueuePri : Nat := 0
deriving DecidableEq, Repr

/-- The constructor `template <typename Func> explicit Task(Func &&F)`:
built from an action alone, every other field keeps its member initializer. -/
def Task.fromFunc (F : Nat) : Task := { Run := F }

/-- `Task::operator<` (Background.h line 76): `QueuePri < O.QueuePri`.
Higher-priority tasks will run first. -/
def Task.lt (T O : Task) : Bool := T.QueuePri < O.QueuePri

/-- The `QueuePriority` enum (Background.h lines 189-192), listed from lowest
to highest priority, so `IndexFile = 0` and `LoadShards = 1`. -/
inductive QueuePriority where
  | IndexFile
  | LoadShards
deriving DecidableEq, Repr

/-- Numeric value of a `QueuePriority` enumerator (C++ enum numbering). -/
def QueuePriority.toNat : QueuePriority → Nat
  | QueuePriority.IndexFile => 0
  | QueuePriority.LoadShards => 1

/-- Modelled from the spec: the pop performed by `BackgroundQueue::work`
(implementation in Background.cpp is not in the sources).  The header
documents `std::vector<Task> Queue; // max-heap` and the spec (§4.1) says
`work` repeatedly pops the highest-`queuePri` task (max-heap discipline);
so pop returns a task maximal under `Task.lt`, together with the rest. -/
def popMax : List Task → Option (Task × List Task)
  | [] => none
  | t :: ts =>
    match popMax ts with
    | none => some (t, [])
    | some (m, rest) =>
      if Task.lt t m then some (m, t :: rest) else some (t, rest)

theorem popMax_eq_none {l : List Task} (h : popMax l = none) : l = [] := by
  cases l with
  | nil => rfl
  | cons a as =>
    simp only [popMax] at h
    cases hm : popMax as with
    | none => rw [hm] at h; cases h
    | some p =>
      obtain ⟨m, mrest⟩ := p
      rw [hm] at h
      by_cases hlt : Task.lt a m <;> simp [hlt] at h

theorem popMax_isMax {l : List Task} {t : Task} {rest : List Task}
    (h : popMax l = some (t, rest)) : ∀ x ∈ l, x.QueuePri ≤ t.QueuePri := by
  induction l generalizing t rest with
  | nil => simp [popMax] at h
  | cons a as ih =>
    simp only [popMax] at h
    cases hm : popMax as with
    | none =>
      rw [hm] at h
      cases h
      have has := popMax_eq_none hm
      subst has
      intro x hx
      rcases List.mem_singleton.mp hx with rfl
      exact Nat.le_refl _
    | some p =>
      obtain ⟨m, mrest⟩ := p
      rw [hm] at h
      by_cases hlt : Task.lt a m
      · simp only [hlt, if_pos] at h
        cases h
        intro x hx
        rcases List.mem_cons.mp hx with hxa | hxas
        · subst hxa
          exact Nat.le_of_lt (by simpa [Task.lt] using hlt)
        · exact ih hm x hxas
      · simp only [hlt, if_neg, not_false_iff] at h
        cases h
        intro x hx
        rcases List.mem_cons.mp hx with hxa | hxas
        · subst hxa; exact Nat.le_refl _
        · have hmx := ih hm x hxas
          have : ¬ a.QueuePri < m.QueuePri := by simpa [Task.lt] using hlt
          omega

/-- C3: for any queue state containing a task at priority `LoadShards` and a
task at priority `IndexFile`, pop (max-heap discipline over
`Task::operator<`, which compares `QueuePri`) never returns the `IndexFile`
task while the `LoadShards` task is present — the `LoadShards` task is
popped first regardless of the order in which the two were pushed. -/
theorem loadShards_popped_before_indexFile
    (l : List Task) (a b : Task)
    (ha : a ∈ l) (hb : b ∈ l)
    (hpa : a.QueuePri = QueuePriority.LoadShards.toNat)
    (hpb : b.QueuePri = QueuePriority.IndexFile.toNat) :
    ∃ t rest, popMax l = some (t, rest) ∧ t ≠ b ∧
      QueuePriority.IndexFile.toNat < t.QueuePri := by
  cases hl : popMax l with
  | none =>
    have := popMax_eq_none hl
    subst this
    cases ha
  | some p =>
    obtain ⟨t, rest⟩ := p
    refine ⟨t, rest, rfl, ?_, ?_⟩
    · intro htb
      subst htb
      have hle := popMax_isMax hl a ha
      rw [hpa, hpb] at hle
      simp only [QueuePriority.toNat] at hle
      omega
    · have hle := popMax_isMax hl a ha
      rw [hpa] at hle
      simp only [QueuePriority.toNat] at hle ⊢
      omega

/-- Witness for C3 at a concrete queue: an `IndexFile`-priority task pushed
before a `LoadShards`-priority task. -/
theorem loadShards_popped_before_indexFile_witness :
    ∃ t rest,
      popMax [{ Run := 1, QueuePri := QueuePriority.IndexFile.toNat },
              { Run := 2, QueuePri := QueuePriority.LoadShards.toNat }] =
        some (t, rest) ∧
      t ≠ { Run := 1, QueuePri := QueuePriority.IndexFile.toNat } ∧
      QueuePriority.IndexFile.toNat < t.QueuePri :=
  loadShards_popped_before_indexFile _
    { Run := 2, QueuePri := QueuePriority.LoadShards.toNat }
    { Run := 1, QueuePri := QueuePriority.IndexFile.toNat }
    (by decide) (by decide) (by decide) (by decide)

/-! ## Shard versions and the update algorithm -/

/-- Content fingerprint of a file's bytes (`FileDigest`): value type,
comparable for equality. -/
abbrev FileDigest := Nat

/-- `BackgroundIndex::ShardVersion` (Background.h lines 142-145): the state
of a single file when indexing was performed. -/
structure ShardVersion where
  Digest : FileDigest := 0
  HadErrors : Bool := false
deriving DecidableEq, Repr

/-- Lookup in a string-keyed map (`llvm::StringMap`), embedded as an
association list observed only through this lookup. -/
def lookupKey (k : String) : List (String × α) → Option α
  | [] => none
  | p :: rest => if p.1 = k then some p.2 else lookupKey k rest

/-- Map insertion or replacement for the association-list embedding. -/
def mapInsert (m : List (String × α)) (k : String) (v : α) :
    List (String × α) := (k, v) :: m

theorem lookupKey_mapInsert (m : List (String × α)) (k p : String) (v : α) :
    lookupKey p (mapInsert m k v) = if k = p then some v else lookupKey p m :=
  rfl

/-- One per-file fragment of a TU's extraction result (`IndexFileIn`
decomposes into one shard per file it touched): the file's absolute path,
the recomputed digest of its content, and the shard produced from it. -/
structure FileResult where
  path : String
  digest : FileDigest
  shard : Nat
deriving DecidableEq, Repr

/-- A shard held in the Shard Store; `producedFrom` records the digest of
the content the shard was produced from (the provenance that invariant I1
talks about). -/
structure StoredShard where
  data : Nat
  producedFrom : FileDigest
deriving DecidableEq, Repr

/-- The state `BackgroundIndex::update` touches: the Shard Version Table
(`ShardVersions`), the Shard Store contents, and the shards staged for merge
into the published index. -/
structure IndexState where
  shardVersions : List (String × ShardVersion)
  shardStore : List (String × StoredShard)
  staged : List String
deriving Repr

/-- The empty index state (fresh `BackgroundIndex`). -/
def IndexState.empty : IndexState :=
  { shardVersions := [], shardStore := [], staged := [] }

/-- Modelled from the spec: the per-file skip decision inside
`BackgroundIndex::update` (Background.cpp is not in the sources; the header
only documents it at lines 147-152).  §4.3 step 5: for every file referenced
in the result, recompute its digest; if it matches the snapshot's recorded
digest for that file and that file had no errors previously, skip it. -/
def skipFile (ShardVersionsSnapshot : List (String × ShardVersion))
    (path : String) (digest : FileDigest) : Bool :=
  match lookupKey path ShardVersionsSnapshot with
  | none => false
  | some sv => sv.Digest == digest && !sv.HadErrors

/-- Modelled from the spec: `BackgroundIndex::update` (declared at
Background.h lines 150-152, body in the missing Background.cpp).  §4.3
step 5: a skipped file's shard is not overwritten; otherwise the Shard
Version Table entry is updated, the new shard is written to the Shard Store,
and the shard is staged for merge.  Returns the new state together with the
list of paths written (= staged). -/
def updateOne (fr : FileResult) (HadErrors : Bool) (st : IndexState) :
    IndexState :=
  { shardVersions := mapInsert st.shardVersions fr.path
      { Digest := fr.digest, HadErrors := HadErrors },
    shardStore := mapInsert st.shardStore fr.path
      { data := fr.shard, producedFrom := fr.digest },
    staged := st.staged ++ [fr.path] }

def update (Index : List FileResult)
    (ShardVersionsSnapshot : List (String × ShardVersion))
    (HadErrors : Bool) (st : IndexState) : IndexState × List String :=
  match Index with
  | [] => (st, [])
  | fr :: rest =>
    if skipFile ShardVersionsSnapshot fr.path fr.digest then
      update rest ShardVersionsSnapshot HadErrors st
    else
      ((update rest ShardVersionsSnapshot HadErrors
          (updateOne fr HadErrors st)).1,
       fr.path :: (update rest ShardVersionsSnapshot HadErrors
          (updateOne fr HadErrors st)).2)

theorem update_cons_skip {fr : FileResult} {rest : List FileResult}
    {snap : List (String × ShardVersion)} {he : Bool} {st : IndexState}
    (hs : skipFile snap fr.path fr.digest = true) :
    update (fr :: rest) snap he st = update rest snap he st := by
  simp [update, hs]

theorem update_cons_write {fr : FileResult} {rest : List FileResult}
    {snap : List (String × ShardVersion)} {he : Bool} {st : IndexState}
    (hs : skipFile snap fr.path fr.digest = false) :
    update (fr :: rest) snap he st =
      ((update rest snap he (updateOne fr he st)).1,
       fr.path :: (update rest snap he (updateOne fr he st)).2) := by
  simp [update, hs]

/-- The paths `update` writes are exactly the non-skipped files of the
result, in order. -/
theorem update_writes (Index : List FileResult)
    (snap : List (String × ShardVersion)) (he : Bool) (st : IndexState) :
    (update Index snap he st).2 =
      (Index.filter
        (fun fr => !skipFile snap fr.path fr.digest)).map FileResult.path := by
  induction Index generalizing st with
  | nil => rfl
  | cons fr rest ih =>
    cases hs : skipFile snap fr.path fr.digest with
    | true => rw [update_cons_skip hs]; simp [List.filter_cons, hs, ih]
    | false => rw [update_cons_write hs]; simp [List.filter_cons, hs, ih]

/-- A path not among the written paths has its table entry, its store entry
and its staged status untouched by `update`. -/
theorem update_unwritten (Index : List FileResult)
    (snap : List (String × ShardVersion)) (he : Bool) (st : IndexState)
    (p : String) (hp : p ∉ (update Index snap he st).2) :
    lookupKey p (update Index snap he st).1.shardVersions =
      lookupKey p st.shardVersions ∧
    lookupKey p (update Index snap he st).1.shardStore =
      lookupKey p st.shardStore ∧
    (p ∈ (update Index snap he st).1.staged ↔ p ∈ st.staged) := by
  induction Index generalizing st with
  | nil => exact ⟨rfl, rfl, Iff.rfl⟩
  | cons fr rest ih =>
    cases hs : skipFile snap fr.path fr.digest with
    | true =>
      rw [update_cons_skip hs] at hp ⊢
      exact ih st hp
    | false =>
      rw [update_cons_write hs] at hp ⊢
      simp only [List.mem_cons, not_or] at hp
      obtain ⟨hne, hp2⟩ := hp
      have h3 := ih _ hp2
      rw [h3.1, h3.2.1, h3.2.2]
      simp only [updateOne, lookupKey_mapInsert]
      refine ⟨?_, ?_, ?_⟩
      · simp [Ne.symm hne]
      · simp [Ne.symm hne]
      · simp [List.mem_append, hne]

/-- C1: `update` skips a file of the result — writes nothing to the Shard
Store for it, leaves its Shard Version Table entry unchanged, stages nothing
for it — exactly when the file's recomputed digest equals the digest
recorded in the snapshot and the snapshot records `HadErrors = false`; in
particular a file whose recorded state has `HadErrors = true` is written
even when its digest is unchanged. -/
theorem update_skips_iff_digest_match_and_no_errors
    (Index : List FileResult) (snap : List (String × ShardVersion))
    (he : Bool) (st : IndexState) (fr : FileResult)
    (hmem : fr ∈ Index) (hnodup : (Index.map FileResult.path).Nodup) :
    (skipFile snap fr.path fr.digest = true ↔
      ∃ sv, lookupKey fr.path snap = some sv ∧
        sv.Digest = fr.digest ∧ sv.HadErrors = false) ∧
    (fr.path ∉ (update Index snap he st).2 ↔
      skipFile snap fr.path fr.digest = true) ∧
    (skipFile snap fr.path fr.digest = true →
      lookupKey fr.path (update Index snap he st).1.shardVersions =
        lookupKey fr.path st.shardVersions ∧
      lookupKey fr.path (update Index snap he st).1.shardStore =
        lookupKey fr.path st.shardStore ∧
      (fr.path ∈ (update Index snap he st).1.staged ↔ fr.path ∈ st.staged)) ∧
    (∀ sv, lookupKey fr.path snap = some sv → sv.HadErrors = true →
      fr.path ∈ (update Index snap he st).2) := by
  have hiff : skipFile snap fr.path fr.digest = true ↔
      ∃ sv, lookupKey fr.path snap = some sv ∧
        sv.Digest = fr.digest ∧ sv.HadErrors = false := by
    unfold skipFile
    cases hsv : lookupKey fr.path snap with
    | none => simp
    | some sv =>
      simp only [Option.some.injEq]
      constructor
      · intro h
        rw [Bool.and_eq_true, beq_iff_eq, Bool.not_eq_true'] at h
        exact ⟨sv, rfl, h.1, h.2⟩
      · rintro ⟨sv2, rfl, hd, herr⟩
        rw [Bool.and_eq_true, beq_iff_eq, Bool.not_eq_true']
        exact ⟨hd, herr⟩
  have hwr : fr.path ∉ (update Index snap he st).2 ↔
      skipFile snap fr.path fr.digest = true := by
    rw [update_writes]
    constructor
    · intro hnot
      by_contra hskip
      apply hnot
      refine List.mem_map.mpr ⟨fr, ?_, rfl⟩
      refine List.mem_filter.mpr ⟨hmem, ?_⟩
      simp [hskip]
    · intro hskip hmemw
      obtain ⟨fr2, hf2, hpath⟩ := List.mem_map.mp hmemw
      obtain ⟨hfr2mem, hfr2keep⟩ := List.mem_filter.mp hf2
      have heq : fr2 = fr :=
        List.inj_on_of_nodup_map hnodup hfr2mem hmem hpath
      subst heq
      rw [hskip] at hfr2keep
      simp at hfr2keep
  refine ⟨hiff, hwr, ?_, ?_⟩
  · intro hskip
    exact update_unwritten Index snap he st fr.path (hwr.mpr hskip)
  · intro sv hsv herr
    by_contra hnot
    have hskip := hwr.mp hnot
    obtain ⟨sv2, hsv2, hd2, herr2⟩ := hiff.mp hskip
    rw [hsv] at hsv2
    injection hsv2 with h
    subst h
    rw [herr] at herr2
    cases herr2

/-- Witness for C1: an extraction result touching two files, one recorded
unchanged and error-free (skipped), one recorded with the same digest but
`HadErrors = true` (written anyway). -/
theorem update_skips_iff_witness :
    (let snap := [("a.h", ({ Digest := 5, HadErrors := false } : ShardVersion)),
                  ("b.h", ({ Digest := 7, HadErrors := true } : ShardVersion))]
     let Index := [({ path := "a.h", digest := 5, shard := 11 } : FileResult),
                   ({ path := "b.h", digest := 7, shard := 12 } : FileResult)]
     skipFile snap "a.h" 5 = true ∧
     "b.h" ∈ (update Index snap false IndexState.empty).2) := by
  refine ⟨by decide, ?_⟩
  exact (update_skips_iff_digest_match_and_no_errors _ _ false IndexState.empty
      { path := "b.h", digest := 7, shard := 12 }
      (by decide) (by decide)).2.2.2
    { Digest := 7, HadErrors := true } (by decide) (by decide)

/-! ## Invariant I1: table / store agreement -/

/-- Invariant I1 (spec §3): for every path, the digest recorded in the Shard
Version Table is the digest of the content that produced the shard currently
held in the Shard Store for that path — and an entry exists in the table
exactly when a shard exists in the store. -/
def TableStoreAgree (st : IndexState) : Prop :=
  ∀ p : String,
    Option.map ShardVersion.Digest (lookupKey p st.shardVersions) =
    Option.map StoredShard.producedFrom (lookupKey p st.shardStore)

theorem updateOne_preserves_agreement (fr : FileResult) (he : Bool)
    (st : IndexState) (h : TableStoreAgree st) :
    TableStoreAgree (updateOne fr he st) := by
  intro p
  simp only [updateOne, lookupKey_mapInsert]
  by_cases hp : fr.path = p
  · simp [hp]
  · simp only [hp, if_neg, not_false_iff]
    exact h p

/-- C9: `update` always writes a file's Shard Version Table entry and its
Shard Store entry together, with the table digest being exactly the digest
of the content the stored shard was produced from; hence invariant I1 —
table and store never disagree about what was last indexed — holds of the
empty state and is preserved by every `update` (the other operations,
`loadShard` and enqueue-driven scheduling, are read-only on this state). -/
theorem update_preserves_table_store_agreement
    (Index : List FileResult) (snap : List (String × ShardVersion))
    (he : Bool) (st : IndexState) (h : TableStoreAgree st) :
    TableStoreAgree (update Index snap he st).1 := by
  induction Index generalizing st with
  | nil => exact h
  | cons fr rest ih =>
    cases hs : skipFile snap fr.path fr.digest with
    | true =>
      rw [update_cons_skip hs]
      exact ih st h
    | false =>
      rw [update_cons_write hs]
      exact ih _ (updateOne_preserves_agreement fr he st h)

/-- Witness for C9: agreement holds after updating the empty state with a
two-file extraction result. -/
theorem update_preserves_table_store_agreement_witness :
    TableStoreAgree (update
      [({ path := "a.h", digest := 5, shard := 11 } : FileResult),
       ({ path := "b.h", digest := 7, shard := 12 } : FileResult)]
      [] false IndexState.empty).1 :=
  update_preserves_table_store_agreement _ [] false IndexState.empty
    (fun _ => rfl)

/-! ## Shard loading and enqueue-driven re-indexing -/

/-- `BackgroundIndex::Source` (Background.h lines 168-173): a source file of
a TU together with whether it needs to be re-indexed. -/
structure Source where
  Path : String
  NeedsReIndexing : Bool
deriving DecidableEq, Repr

/-- A compile command (external entity owned by the compilation database):
the TU's main file together with the files the TU depends on (main file plus
transitively-included files). -/
structure CompileCommand where
  mainFile : String
  deps : List String
deriving DecidableEq, Repr

/-- Modelled from the spec: the per-dependency decision inside
`BackgroundIndex::loadShard` (declared at Background.h lines 176-178, body
in the missing Background.cpp).  §4.3 step 2: compare each dependency's
current digest (computed from the file system) against its recorded
ShardVersion; a file whose digest is unchanged and whose recorded state has
no prior errors does not need re-indexing, while a changed digest, a prior
error, or the absence of a recorded version forces re-indexing. -/
def needsReIndexing (shardVersions : List (String × ShardVersion))
    (fsDigest : String → FileDigest) (path : String) : Bool :=
  match lookupKey path shardVersions with
  | none => true
  | some sv => !(sv.Digest == fsDigest path && !sv.HadErrors)

/-- Modelled from the spec: `BackgroundIndex::loadShard` returns the list of
sources of a TU and whether each needs re-indexing (Background.h
lines 174-178). -/
def loadShard (shardVersions : List (String × ShardVersion))
    (fsDigest : String → FileDigest) (Cmd : CompileCommand) : List Source :=
  Cmd.deps.map (fun p =>
    { Path := p, NeedsReIndexing := needsReIndexing shardVersions fsDigest p })

/-- Modelled from the spec: §4.3 step 3 — after loading shards, an
`IndexFile` task (re-extraction) is scheduled exactly for those TUs having
some source that needs re-indexing. -/
def scheduledForReIndexing (shardVersions : List (String × ShardVersion))
    (fsDigest : String → FileDigest) (Cmds : List CompileCommand) :
    List CompileCommand :=
  Cmds.filter (fun Cmd =>
    (loadShard shardVersions fsDigest Cmd).any Source.NeedsReIndexing)

/-- C2: if the digest of a file differs from the one recorded at the
previous enqueue, the second enqueue schedules an index-file task for every
TU depending on that file; if the digest is unchanged and the recorded state
has no prior errors, `loadShard` marks the file's Source with
`NeedsReIndexing = false` and no IndexFile task is scheduled for a TU
depending solely on that file. -/
theorem changed_digest_triggers_reindexing
    (shardVersions : List (String × ShardVersion))
    (fsDigest : String → FileDigest) (Cmds : List CompileCommand)
    (Cmd : CompileCommand) (p : String) (sv : ShardVersion)
    (hrec : lookupKey p shardVersions = some sv) :
    (sv.Digest ≠ fsDigest p → Cmd ∈ Cmds → p ∈ Cmd.deps →
      Cmd ∈ scheduledForReIndexing shardVersions fsDigest Cmds) ∧
    (sv.Digest = fsDigest p → sv.HadErrors = false → Cmd.deps = [p] →
      loadShard shardVersions fsDigest Cmd =
        [{ Path := p, NeedsReIndexing := false }] ∧
      Cmd ∉ scheduledForReIndexing shardVersions fsDigest Cmds) := by
  constructor
  · intro hne hc hp
    refine List.mem_filter.mpr ⟨hc, ?_⟩
    rw [List.any_eq_true]
    refine ⟨{ Path := p,
              NeedsReIndexing := needsReIndexing shardVersions fsDigest p },
            List.mem_map.mpr ⟨p, hp, rfl⟩, ?_⟩
    simp only [needsReIndexing, hrec]
    simp [hne]
  · intro hd herr hdeps
    have hnri : needsReIndexing shardVersions fsDigest p = false := by
      simp only [needsReIndexing, hrec]
      simp [hd, herr]
    have hload : loadShard shardVersions fsDigest Cmd =
        [{ Path := p, NeedsReIndexing := false }] := by
      simp [loadShard, hdeps, hnri]
    refine ⟨hload, ?_⟩
    intro hmem
    have h2 := (List.mem_filter.mp hmem).2
    rw [hload] at h2
    simp [Source.NeedsReIndexing] at h2

/-- Witness for C2: a table recording digest 5 for `"a.h"`; a changed
file-system digest schedules the dependent TU, an unchanged one does not. -/
theorem changed_digest_triggers_reindexing_witness :
    (let sv : ShardVersion := { Digest := 5, HadErrors := false }
     let tbl := [("a.h", sv)]
     let cmd : CompileCommand := { mainFile := "a.cc", deps := ["a.h"] }
     (sv.Digest ≠ (fun _ => 6) "a.h" → cmd ∈ [cmd] → "a.h" ∈ cmd.deps →
       cmd ∈ scheduledForReIndexing tbl (fun _ => 6) [cmd]) ∧
     (sv.Digest = (fun _ => 5) "a.h" → sv.HadErrors = false →
       cmd.deps = ["a.h"] →
       loadShard tbl (fun _ => 5) cmd =
         [{ Path := "a.h", NeedsReIndexing := false }] ∧
       cmd ∉ scheduledForReIndexing tbl (fun _ => 5) [cmd])) :=
  ⟨(changed_digest_triggers_reindexing
      [("a.h", { Digest := 5, HadErrors := false })] (fun _ => 6)
      [{ mainFile := "a.cc", deps := ["a.h"] }]
      { mainFile := "a.cc", deps := ["a.h"] } "a.h"
      { Digest := 5, HadErrors := false } (by decide)).1,
   (changed_digest_triggers_reindexing
      [("a.h", { Digest := 5, HadErrors := false })] (fun _ => 5)
      [{ mainFile := "a.cc", deps := ["a.h"] }]
      { mainFile := "a.cc", deps := ["a.h"] } "a.h"
      { Digest := 5, HadErrors := false } (by decide)).2⟩

/-! ## Queue operational model -/

/-- State of `BackgroundQueue` as seen by one worker (Background.h
lines 96-102): the pending tasks (`Queue`, a max-heap), the task the worker
is currently executing (`NumActiveTasks` is 1 when present, 0 otherwise),
the `ShouldStop` flag, and — for bookkeeping — the list of tasks that have
ever started executing. -/
structure BQState where
  queue : List Task
  running : Option Task
  shouldStop : Bool
  started : List Task
deriving DecidableEq, Repr

/-- `NumActiveTasks` (Background.h line 98). -/
def BQState.numActiveTasks (s : BQState) : Nat :=
  match s.running with
  | none => 0
  | some _ => 1

/-- Idleness as the header defines it (Background.h line 98: "Only idle
when queue is empty *and* no tasks."). -/
def BQState.isIdle (s : BQState) : Bool :=
  s.queue.isEmpty && s.numActiveTasks == 0

/-- Modelled from the spec: `BackgroundQueue::blockUntilIdleForTest`
(declared at Background.h lines 93-94, body in the missing Background.cpp)
reports whether the state observed on wakeup is idle: zero queued tasks and
zero executing tasks. -/
def blockUntilIdleForTest (s : BQState) : Bool := s.isIdle

/-- The events in the life of the queue (§4.1): a task is pushed; a worker
pops the highest-priority task and starts running it; the running task
finishes; `stop` is called; a `work()` loop returns. -/
inductive BQEvent where
  | push (t : Task)
  | start
  | finish
  | stopCall
  | workReturn
deriving DecidableEq, Repr

/-- Modelled from the spec: one transition of the queue (the bodies of
`push`, `work` and `stop` are in the missing Background.cpp); `none` means
the event cannot occur in that state.  `start` pops the max-priority task
and requires `ShouldStop = false` (stop prevents further task execution
from starting); `finish` completes the running task — the only transition
that ends execution of a task, so there is no mid-task cancellation;
`workReturn` requires `ShouldStop` and that the current task, if any, has
finished. -/
def bqStep (s : BQState) (e : BQEvent) : Option BQState :=
  match e with
  | BQEvent.push t => some { s with queue := t :: s.queue }
  | BQEvent.start =>
    match s.running with
    | some _ => none
    | none =>
      if s.shouldStop then none
      else
        match popMax s.queue with
        | none => none
        | some (t, rest) =>
          some { queue := rest, running := some t,
                 shouldStop := s.shouldStop, started := s.started ++ [t] }
  | BQEvent.finish =>
    match s.running with
    | none => none
    | some _ => some { s with running := none }
  | BQEvent.stopCall => some { s with shouldStop := true }
  | BQEvent.workReturn =>
    if s.shouldStop then
      match s.running with
      | none => some s
      | some _ => none
    else none

/-- Run a list of events from a state; `none` when some event cannot
occur. -/
def bqRun (s : BQState) : List BQEvent → Option BQState
  | [] => some s
  | e :: es =>
    match bqStep s e with
    | none => none
    | some s2 => bqRun s2 es

/-- C5: `blockUntilIdleForTest` returns true only in states where the task
queue is empty and the count of executing tasks is zero; and a push while a
caller waits for idle is always observed — immediately after the push the
task is in the queue, and the wait cannot report idle in any state in which
that task is still pending or running. -/
theorem blockUntilIdle_only_when_idle (s s2 : BQState) (t : Task)
    (hpush : bqStep s (BQEvent.push t) = some s2) :
    (∀ s3 : BQState, blockUntilIdleForTest s3 = true ↔
      s3.queue = [] ∧ s3.numActiveTasks = 0) ∧
    t ∈ s2.queue ∧
    (∀ s3 : BQState, t ∈ s3.queue ∨ s3.running = some t →
      blockUntilIdleForTest s3 = false) := by
  refine ⟨?_, ?_, ?_⟩
  · intro s3
    simp [blockUntilIdleForTest, BQState.isIdle, List.isEmpty_iff]
  · simp only [bqStep] at hpush
    injection hpush with h
    subst h
    exact List.mem_cons_self t s.queue
  · intro s3 hmem
    rcases hmem with hq | hr
    · have : s3.queue ≠ [] := List.ne_nil_of_mem hq
      simp [blockUntilIdleForTest, BQState.isIdle, List.isEmpty_iff, this]
    · simp [blockUntilIdleForTest, BQState.isIdle, BQState.numActiveTasks, hr]

/-- Witness for C5 at a concrete state and task. -/
theorem blockUntilIdle_only_when_idle_witness :
    (∀ s3 : BQState, blockUntilIdleForTest s3 = true ↔
      s3.queue = [] ∧ s3.numActiveTasks = 0) ∧
    Task.fromFunc 9 ∈
      ({ queue := [Task.fromFunc 9], running := none, shouldStop := false,
         started := [] } : BQState).queue ∧
    (∀ s3 : BQState,
      Task.fromFunc 9 ∈ s3.queue ∨ s3.running = some (Task.fromFunc 9) →
      blockUntilIdleForTest s3 = false) :=
  blockUntilIdle_only_when_idle
    { queue := [], running := none, shouldStop := false, started := [] }
    { queue := [Task.fromFunc 9], running := none, shouldStop := false,
      started := [] }
    (Task.fromFunc 9) (by decide)

theorem bqStep_shouldStop_mono (s s2 : BQState) (e : BQEvent)
    (h : bqStep s e = some s2) (hstop : s.shouldStop = true) :
    s2.shouldStop = true := by
  cases e with
  | push t => simp only [bqStep] at h; injection h with h; rw [← h]; exact hstop
  | start => simp only [bqStep] at h; cases hr : s.running with
    | some t => rw [hr] at h; cases h
    | none => rw [hr, hstop] at h; simp at h
  | finish => simp only [bqStep] at h; cases hr : s.running with
    | none => rw [hr] at h; cases h
    | some t => rw [hr] at h; injection h with h; rw [← h]; exact hstop
  | stopCall => simp only [bqStep] at h; injection h with h; rw [← h]
  | workReturn =>
    simp only [bqStep, hstop] at h
    cases hr : s.running with
    | none => rw [hr] at h; simp at h; rw [← h]; exact hstop
    | some t => rw [hr] at h; simp at h

theorem bqRun_stopped_no_new_start (evs : List BQEvent) (s s2 : BQState)
    (hrun : bqRun s evs = some s2) (hstop : s.shouldStop = true) :
    s2.started = s.started ∧ s2.shouldStop = true := by
  induction evs generalizing s with
  | nil => simp only [bqRun] at hrun; injection hrun with h; rw [h]; exact ⟨rfl, h ▸ hstop⟩
  | cons e es ih =>
    simp only [bqRun] at hrun
    cases hstep : bqStep s e with
    | none => rw [hstep] at hrun; cases hrun
    | some s3 =>
      rw [hstep] at hrun
      have hstop3 := bqStep_shouldStop_mono s s3 e hstep hstop
      have h3 := ih s3 hrun hstop3
      refine ⟨?_, h3.2⟩
      rw [h3.1]
      cases e with
      | push t => simp only [bqStep] at hstep; injection hstep with h; rw [← h]
      | start =>
        simp only [bqStep] at hstep
        cases hr : s.running with
        | some t => rw [hr] at hstep; cases hstep
        | none => rw [hr, hstop] at hstep; simp at hstep
      | finish =>
        simp only [bqStep] at hstep
        cases hr : s.running with
        | none => rw [hr] at hstep; cases hstep
        | some t => rw [hr] at hstep; injection hstep with h; rw [← h]
      | stopCall => simp only [bqStep] at hstep; injection hstep with h; rw [← h]
      | workReturn =>
        simp only [bqStep, hstop] at hstep
        cases hr : s.running with
        | none => rw [hr] at hstep; simp at hstep; rw [← hstep]
        | some t => rw [hr] at hstep; simp at hstep

/-- C7: after `stop()` has been observed (`ShouldStop = true`), no queued
task ever starts — in every valid run from a stopped state the set of
started tasks does not grow, so still-queued tasks are discarded, never
run; a task already running leaves execution only through `finish`, i.e. it
completes in full with no mid-task cancellation; and a `work()` loop
returns only once stop has been called and its current task (if any) has
finished. -/
theorem stop_discards_queued_tasks (evs : List BQEvent) (s s2 : BQState)
    (hstop : s.shouldStop = true) (hrun : bqRun s evs = some s2) :
    s2.started = s.started ∧
    (∀ (s3 : BQState) (e : BQEvent) (s4 : BQState) (t : Task),
      bqStep s3 e = some s4 → s3.running = some t →
      s4.running = some t ∨ e = BQEvent.finish) ∧
    (∀ s3 s4 : BQState, bqStep s3 BQEvent.workReturn = some s4 →
      s3.shouldStop = true ∧ s3.running = none) := by
  refine ⟨(bqRun_stopped_no_new_start evs s s2 hrun hstop).1, ?_, ?_⟩
  · intro s3 e s4 t hstep hr
    cases e with
    | push t2 =>
      left
      simp only [bqStep] at hstep
      injection hstep with h
      rw [← h]
      exact hr
    | start =>
      simp only [bqStep, hr] at hstep
      exact Option.noConfusion hstep
    | finish => right; rfl
    | stopCall =>
      left
      simp only [bqStep] at hstep
      injection hstep with h
      rw [← h]
      exact hr
    | workReturn =>
      simp only [bqStep, hr] at hstep
      cases hss : s3.shouldStop <;> rw [hss] at hstep <;> simp at hstep
  · intro s3 s4 hstep
    simp only [bqStep] at hstep
    cases hss : s3.shouldStop with
    | false => rw [hss] at hstep; simp at hstep
    | true =>
      rw [hss] at hstep
      cases hr : s3.running with
      | none => exact ⟨rfl, rfl⟩
      | some t => rw [hr] at hstep; simp at hstep

/-- Witness for C7: from a stopped state with one queued and one running
task, the running task finishes, the worker returns, and nothing new ever
starts. -/
theorem stop_discards_queued_tasks_witness :
    (let s : BQState :=
      { queue := [Task.fromFunc 1], running := some (Task.fromFunc 2),
        shouldStop := true, started := [Task.fromFunc 2] }
     let s2 : BQState :=
      { queue := [Task.fromFunc 1], running := none,
        shouldStop := true, started := [Task.fromFunc 2] }
     s2.started = s.started ∧
     (∀ (s3 : BQState) (e : BQEvent) (s4 : BQState) (t : Task),
       bqStep s3 e = some s4 → s3.running = some t →
       s4.running = some t ∨ e = BQEvent.finish) ∧
     (∀ s3 s4 : BQState, bqStep s3 BQEvent.workReturn = some s4 →
       s3.shouldStop = true ∧ s3.running = none)) :=
  stop_discards_queued_tasks [BQEvent.finish, BQEvent.workReturn]
    { queue := [Task.fromFunc 1], running := some (Task.fromFunc 2),
      shouldStop := true, started := [Task.fromFunc 2] }
    { queue := [Task.fromFunc 1], running := none,
      shouldStop := true, started := [Task.fromFunc 2] }
    (by decide) (by decide)

/-! ## Rebuild coordinator -/

/-- Configuration of the Rebuild Coordinator: the number of staged shard
updates that forces a rebuild, and the wall-clock interval since the last
rebuild that forces one. -/
structure RebuildPolicy where
  updatesBeforeRebuild : Nat
  rebuildIntervalMs : Nat
deriving DecidableEq, Repr

/-- State of the Rebuild Coordinator (`BackgroundIndexRebuilder`, declared
at Background.h line 163; its sources are not part of the analyzed
material): the staged-but-unmerged shard updates and the time of the last
rebuild. -/
structure RebuilderState where
  pending : List String
  lastRebuildTime : Nat
deriving DecidableEq, Repr

/-- Modelled from the spec: §4.4 — when a shard update is staged at time
`now`, a snapshot rebuild is triggered iff the batch has reached the
configured number of updates or the configured wall-clock interval since
the last rebuild has elapsed, whichever comes first; a rebuild republishes
the whole pending batch and resets it, otherwise the update is merely
accumulated.  Returns the new state and the rebuild performed, if any. -/
def onShardUpdate (pol : RebuildPolicy) (s : RebuilderState) (path : String)
    (now : Nat) : RebuilderState × Option (List String) :=
  if pol.updatesBeforeRebuild ≤ s.pending.length + 1 ∨
      pol.rebuildIntervalMs ≤ now - s.lastRebuildTime then
    ({ pending := [], lastRebuildTime := now }, some (s.pending ++ [path]))
  else
    ({ pending := s.pending ++ [path], lastRebuildTime := s.lastRebuildTime },
     none)

/-- C4: the Rebuild Coordinator triggers a snapshot rebuild on a staged
shard update exactly when the accumulated number of staged updates reaches
the configured count or the configured wall-clock interval since the last
rebuild has elapsed, whichever comes first — and otherwise (so, in a
configuration whose thresholds have not been reached, on every single file
update) it only accumulates the update without rebuilding. -/
theorem rebuild_only_at_threshold_or_interval (pol : RebuildPolicy)
    (s : RebuilderState) (path : String) (now : Nat) :
    ((onShardUpdate pol s path now).2 ≠ none ↔
      pol.updatesBeforeRebuild ≤ s.pending.length + 1 ∨
      pol.rebuildIntervalMs ≤ now - s.lastRebuildTime) ∧
    ((onShardUpdate pol s path now).2 = none →
      (onShardUpdate pol s path now).1.pending = s.pending ++ [path]) := by
  by_cases hc : pol.updatesBeforeRebuild ≤ s.pending.length + 1 ∨
      pol.rebuildIntervalMs ≤ now - s.lastRebuildTime
  · constructor
    · simp [onShardUpdate, hc]
    · intro hnone
      simp [onShardUpdate, hc] at hnone
  · constructor
    · simp [onShardUpdate, hc]
    · intro _
      simp [onShardUpdate, hc]

/-- Witness for C4: with a batch threshold of 3 and an interval of 100ms,
the second staged update (20ms after the last rebuild) does not rebuild. -/
theorem rebuild_only_at_threshold_or_interval_witness :
    (let pol : RebuildPolicy :=
      { updatesBeforeRebuild := 3, rebuildIntervalMs := 100 }
     let s : RebuilderState := { pending := ["a.h"], lastRebuildTime := 0 }
     (onShardUpdate pol s "b.h" 20).2 = none ∧
     (onShardUpdate pol s "b.h" 20).1.pending = ["a.h", "b.h"]) := by
  refine ⟨by decide, ?_⟩
  exact (rebuild_only_at_threshold_or_interval
    { updatesBeforeRebuild := 3, rebuildIntervalMs := 100 }
    { pending := ["a.h"], lastRebuildTime := 0 } "b.h" 20).2 (by decide)

/-- Modelled from the spec: `BackgroundIndexRebuilder::shutdown` (§4.4) —
flushes any pending batch into one final rebuild; afterwards nothing is
pending.  Returns the final state and the list of rebuilds performed. -/
def rebuilderShutdown (s : RebuilderState) :
    RebuilderState × List (List String) :=
  if s.pending.isEmpty then
    ({ pending := [], lastRebuildTime := s.lastRebuildTime }, [])
  else
    ({ pending := [], lastRebuildTime := s.lastRebuildTime }, [s.pending])

/-- What `BackgroundIndex::stop` does, in order. -/
inductive StopEvent where
  | rebuild (shards : List String)
  | queueStopped
deriving DecidableEq, Repr

/-- `BackgroundIndex::stop` (Background.h lines 129-132): first
`Rebuilder.shutdown()` — flushing staged updates — then `Queue.stop()`;
the returned trace records what happened, in order. -/
def backgroundIndexStop (r : RebuilderState) :
    RebuilderState × List StopEvent :=
  ((rebuilderShutdown r).1,
   ((rebuilderShutdown r).2.map StopEvent.rebuild) ++ [StopEvent.queueStopped])

/-- C6: calling `stop` while shard updates are staged but not yet merged
produces exactly one final snapshot rebuild, containing all of those
pending updates, before the queue is stopped; afterwards nothing is
pending, so no indexed-but-unpublished shard is lost. -/
theorem shutdown_flushes_pending_in_one_rebuild (r : RebuilderState)
    (hpending : r.pending ≠ []) :
    (backgroundIndexStop r).2 =
      [StopEvent.rebuild r.pending, StopEvent.queueStopped] ∧
    (backgroundIndexStop r).1.pending = [] := by
  have hne : r.pending.isEmpty = false := by
    rw [Bool.eq_false_iff]
    intro hcon
    exact hpending (List.isEmpty_iff.mp hcon)
  constructor
  · simp [backgroundIndexStop, rebuilderShutdown, hne]
  · simp [backgroundIndexStop, rebuilderShutdown, hne]

/-- Witness for C6 with two staged updates. -/
theorem shutdown_flushes_pending_in_one_rebuild_witness :
    (backgroundIndexStop { pending := ["a.h", "b.h"], lastRebuildTime := 7 }).2 =
      [StopEvent.rebuild ["a.h", "b.h"], StopEvent.queueStopped] ∧
    (backgroundIndexStop
      { pending := ["a.h", "b.h"], lastRebuildTime := 7 }).1.pending = [] :=
  shutdown_flushes_pending_in_one_rebuild
    { pending := ["a.h", "b.h"], lastRebuildTime := 7 } (by decide)

/-! ## Storage failure handling -/

/-- Modelled from the spec: the recorded-version view the Orchestrator
derives from the Shard Store when it loads shards (§4.3 step 2, §7): a
shard that loads yields the digest and error state it was indexed under; a
shard that cannot be loaded (`BackgroundIndexStorage::loadShard` returned
nullptr, Background.h lines 47-50) yields nothing, and the file is treated
exactly like a never-indexed one: it needs re-extraction. -/
def needsReIndexingFromStorage (storage : String → Option ShardVersion)
    (fsDigest : String → FileDigest) (p : String) : Bool :=
  match storage p with
  | none => true
  | some sv => !(sv.Digest == fsDigest p && !sv.HadErrors)

/-- Result of `BackgroundIndexStorage::storeShard` (Background.h
lines 44-45, `llvm::Error`). -/
inductive StoreResult where
  | ok
  | err (msg : String)
deriving DecidableEq, Repr

/-- Modelled from the spec: §7 — a `storeShard` failure is logged and
treated as a dropped write: the store contents stay unchanged and the
worker survives; a success performs the write.  The Bool records that the
worker is still alive afterwards. -/
def applyStoreResult (store : List (String × StoredShard)) (p : String)
    (sh : StoredShard) (r : StoreResult) :
    List (String × StoredShard) × Bool :=
  match r with
  | StoreResult.ok => (mapInsert store p sh, true)
  | StoreResult.err _ => (store, true)

/-- C8: a failed or absent shard load is never an error to the caller —
`loadShard` yields an absent value, and the Orchestrator treats absence
exactly like a never-indexed file, forcing re-extraction; a `storeShard`
error is a dropped write (store unchanged) that is never fatal to the
worker, and because the dropped write leaves the recorded state untouched,
a later change notification whose digest differs from the recorded one
re-extracts the file. -/
theorem storage_failures_never_fatal :
    (∀ (storage : String → Option ShardVersion)
       (fsDigest : String → FileDigest) (p : String),
      storage p = none →
      needsReIndexingFromStorage storage fsDigest p = true ∧
      needsReIndexingFromStorage storage fsDigest p =
        needsReIndexingFromStorage (fun _ => none) fsDigest p) ∧
    (∀ (store : List (String × StoredShard)) (p : String) (sh : StoredShard)
       (msg : String),
      applyStoreResult store p sh (StoreResult.err msg) = (store, true)) ∧
    (∀ (store : List (String × StoredShard)) (p : String) (sh : StoredShard)
       (r : StoreResult), (applyStoreResult store p sh r).2 = true) ∧
    (∀ (storage : String → Option ShardVersion)
       (fsDigest : String → FileDigest) (p : String) (sv : ShardVersion),
      storage p = some sv → sv.Digest ≠ fsDigest p →
      needsReIndexingFromStorage storage fsDigest p = true) := by
  refine ⟨?_, ?_, ?_, ?_⟩
  · intro storage fsDigest p habs
    constructor
    · simp [needsReIndexingFromStorage, habs]
    · simp [needsReIndexingFromStorage, habs]
  · intro store p sh msg
    rfl
  · intro store p sh r
    cases r with
    | ok => rfl
    | err msg => rfl
  · intro storage fsDigest p sv hrec hne
    simp [needsReIndexingFromStorage, hrec, hne]

/-- Witness for C8 at a concrete storage with one absent and one stale
entry. -/
theorem storage_failures_never_fatal_witness :
    (needsReIndexingFromStorage (fun _ => none) (fun _ => 5) "a.h" = true ∧
      needsReIndexingFromStorage (fun _ => none) (fun _ => 5) "a.h" =
        needsReIndexingFromStorage (fun _ => none) (fun _ => 5) "a.h") ∧
    applyStoreResult [] "a.h" { data := 1, producedFrom := 5 }
      (StoreResult.err "disk full") = ([], true) ∧
    needsReIndexingFromStorage
      (fun _ => some { Digest := 5, HadErrors := false }) (fun _ => 6)
      "a.h" = true :=
  ⟨storage_failures_never_fatal.1 (fun _ => none) (fun _ => 5) "a.h" rfl,
   storage_failures_never_fatal.2.1 [] "a.h" { data := 1, producedFrom := 5 }
     "disk full",
   storage_failures_never_fatal.2.2.2
     (fun _ => some { Digest := 5, HadErrors := false }) (fun _ => 6) "a.h"
     { Digest := 5, HadErrors := false } rfl (by decide)⟩

/-- C10: a `Task` constructed from an action alone keeps the member
initializers `QueuePri = 0` (numerically equal to the lowest tier,
`IndexFile`) and `ThreadPri = ThreadPriority::Background`; and
`Task::operator<` compares only `QueuePri`, so neither the thread-priority
hint nor the action influences the heap ordering. -/
theorem task_defaults_and_ordering :
    (∀ F : Nat, (Task.fromFunc F).QueuePri = 0 ∧
      (Task.fromFunc F).QueuePri = QueuePriority.IndexFile.toNat ∧
      (Task.fromFunc F).ThreadPri = ThreadPriority.Background) ∧
    (∀ (T O : Task) (r r2 : Nat) (p p2 : ThreadPriority),
      Task.lt { Run := r, ThreadPri := p, QueuePri := T.QueuePri }
              { Run := r2, ThreadPri := p2, QueuePri := O.QueuePri } =
      Task.lt T O) := by
  constructor
  · intro F
    exact ⟨rfl, rfl, rfl⟩
  · intro T O r r2 p p2
    rfl

end Clangd
